import Mathlib

/-!
Shallow embedding of the labor-market signal pipeline
(`src/signals/market_conditions.py`, `src/transforms/build_market_metrics.py`,
`app/streamlit_app.py`).

Numeric cells are modelled as `Option ℚ`: `none` is a missing value (pandas
`NaN`) and propagates through elementwise arithmetic exactly as `NaN` does.
The classifier, which in the source receives plain Python floats, is modelled
over an enriched value type `FVal` that distinguishes finite values from
`NaN`/`±∞` so that IEEE comparison semantics (`NaN` compares false) are kept.
Division is exact rational division, which is total; the places where pandas
float division would instead produce `±inf` or `NaN` from a zero divisor
(for example a `0/0` seekers-per-opening cell when `unemp_rate` and
`job_openings_index` are both zero, or a zero raw-EPI median) are excluded by
explicit nonzero hypotheses in the theorems whose conclusions would otherwise
diverge from the source.
-/

attribute [local semireducible] Rat.mul Rat.inv Rat.add Rat.sub

namespace LaborMarket

/-- Pointwise lifting of a binary operation to nullable cells; `none` models a
missing (NaN) cell and propagates, as in pandas elementwise arithmetic. -/
def omap2 (f : ℚ → ℚ → ℚ) : Option ℚ → Option ℚ → Option ℚ
  | some a, some b => some (f a b)
  | _, _ => none

/-- Enriched float value: finite rational, NaN, or a signed infinity.
Used for the classifier, whose Python source receives raw floats. -/
inductive FVal where
  | nan
  | pinf
  | ninf
  | fin (q : ℚ)
  deriving DecidableEq

namespace FVal

/-- IEEE `<` on enriched values: any comparison with NaN is false. -/
def blt : FVal → FVal → Bool
  | nan, _ => false
  | _, nan => false
  | ninf, ninf => false
  | ninf, _ => true
  | pinf, _ => false
  | fin _, pinf => true
  | fin _, ninf => false
  | fin a, fin b => decide (a < b)

/-- Python `x > y`, i.e. IEEE `y < x`. -/
def bgt (x y : FVal) : Bool := blt y x

/-- IEEE subtraction on enriched values (`∞ - ∞ = NaN`). -/
def sub : FVal → FVal → FVal
  | nan, _ => nan
  | _, nan => nan
  | pinf, pinf => nan
  | pinf, _ => pinf
  | ninf, ninf => nan
  | ninf, _ => ninf
  | fin _, pinf => ninf
  | fin _, ninf => pinf
  | fin a, fin b => fin (a - b)

/-- IEEE multiplication on enriched values (`∞ * 0 = NaN`). -/
def mul : FVal → FVal → FVal
  | nan, _ => nan
  | _, nan => nan
  | pinf, pinf => pinf
  | pinf, ninf => ninf
  | pinf, fin q => if q = 0 then nan else if 0 < q then pinf else ninf
  | ninf, pinf => ninf
  | ninf, ninf => pinf
  | ninf, fin q => if q = 0 then nan else if 0 < q then ninf else pinf
  | fin q, pinf => if q = 0 then nan else if 0 < q then pinf else ninf
  | fin q, ninf => if q = 0 then nan else if 0 < q then ninf else pinf
  | fin a, fin b => fin (a * b)

/-- Python builtin `min(a, b)`: returns `b` only when `b < a` is true, so
`min(NaN, c) = NaN`. -/
def pymin (a b : FVal) : FVal := if blt b a then b else a

/-- Python builtin `max(a, b)`: returns `b` only when `a < b` is true. -/
def pymax (a b : FVal) : FVal := if blt a b then b else a

end FVal

/-- Hiring-outlook classification labels of `classify_market_state`. -/
inductive HiringOutlook where
  | FAVORABLE
  | BALANCED
  | CHALLENGING
  deriving DecidableEq

/-- Volatility labels of `classify_market_state`. -/
inductive Volatility where
  | HIGH
  | MODERATE
  | LOW
  deriving DecidableEq

/-- Retention-risk labels of `classify_market_state`. -/
inductive RetentionRisk where
  | ELEVATED
  | NORMAL
  | LOW
  deriving DecidableEq

/-- Overall market-state labels (`"EMPLOYER'S MARKET"`, `"EMPLOYEE'S MARKET"`,
`"TRANSITIONING"`). -/
inductive MarketState where
  | employersMarket
  | employeesMarket
  | transitioning
  deriving DecidableEq

/-- Traffic-light color attached to the overall state. -/
inductive StateColor where
  | green
  | red
  | yellow
  deriving DecidableEq

/-- Tags standing for the fixed recommendation strings appended by
`classify_market_state`, in source order. -/
inductive Rec where
  | accelerateHiring
  | upgradeTalent
  | focusRetention
  | reviewCompensation
  | retentionPrograms
  | monitorQuitRates
  | optimizeCosts
  | orgChanges
  deriving DecidableEq

/-- Result dictionary of `classify_market_state`. The `epi`/`velocity` echo
fields and `hiring_score` are carried unrounded (the source rounds them for
display only). -/
structure Classification where
  state : MarketState
  color : StateColor
  hiring_outlook : HiringOutlook
  hiring_score : FVal
  retention_risk : RetentionRisk
  volatility : Volatility
  epi : FVal
  velocity : FVal
  recommendations : List Rec
  deriving DecidableEq

/-- Translation of `MarketSignals.classify_market_state(epi, velocity)`: threshold-based
classification, translated clause by clause from the source. -/
def classify_market_state (epi velocity : FVal) : Classification :=
  let hiring_state : HiringOutlook :=
    if epi.bgt (.fin (3/2)) then .FAVORABLE
    else if epi.bgt (.fin (4/5)) then .BALANCED
    else .CHALLENGING
  let hiring_score : FVal :=
    if epi.bgt (.fin (3/2)) then FVal.pymin ((epi.sub (.fin 1)).mul (.fin 2)) (.fin 3)
    else if epi.bgt (.fin (4/5)) then .fin 0
    else FVal.pymax ((epi.sub (.fin 1)).mul (.fin 2)) (.fin (-3))
  let volatility : Volatility :=
    if velocity.bgt (.fin (13/10)) then .HIGH
    else if velocity.bgt (.fin (9/10)) then .MODERATE
    else .LOW
  let retention_risk : RetentionRisk :=
    if velocity.bgt (.fin (13/10)) then .ELEVATED
    else if velocity.bgt (.fin (9/10)) then .NORMAL
    else .LOW
  let overall : MarketState :=
    if hiring_state = .FAVORABLE ∧ volatility = .LOW then .employersMarket
    else if hiring_state = .CHALLENGING ∧ volatility = .HIGH then .employeesMarket
    else .transitioning
  let color : StateColor :=
    if hiring_state = .FAVORABLE ∧ volatility = .LOW then .green
    else if hiring_state = .CHALLENGING ∧ volatility = .HIGH then .red
    else .yellow
  let recs : List Rec :=
    (if hiring_state = .FAVORABLE then [.accelerateHiring, .upgradeTalent]
     else if hiring_state = .CHALLENGING then [.focusRetention, .reviewCompensation]
     else []) ++
    (if retention_risk = .ELEVATED then [.retentionPrograms, .monitorQuitRates]
     else if retention_risk = .LOW then [.optimizeCosts, .orgChanges]
     else [])
  { state := overall
    color := color
    hiring_outlook := hiring_state
    hiring_score := hiring_score
    retention_risk := retention_risk
    volatility := volatility
    epi := epi
    velocity := velocity
    recommendations := recs }

/-- Median in the pandas sense: sort the values, take the middle element for
odd length and the mean of the two middle elements for even length
(`Series.median` after dropping nulls; the empty case is handled by callers). -/
def medianQ (l : List ℚ) : ℚ :=
  if l.length % 2 = 1 then (l.insertionSort (· ≤ ·)).getD (l.length / 2) 0
  else if l.length = 0 then 0
  else ((l.insertionSort (· ≤ ·)).getD (l.length / 2 - 1) 0 +
    (l.insertionSort (· ≤ ·)).getD (l.length / 2) 0) / 2

/-- Forward fill with a carried last-seen value: `none` cells are replaced by
the most recent `some` cell, leading `none`s stay `none`
(pandas `fillna(method="pad")`). -/
def ffillAux : Option ℚ → List (Option ℚ) → List (Option ℚ)
  | _, [] => []
  | last, none :: xs => last :: ffillAux last xs
  | _, some v :: xs => some v :: ffillAux (some v) xs

/-- Forward fill of a column (pandas `ffill`). -/
def ffill (l : List (Option ℚ)) : List (Option ℚ) := ffillAux none l

/-- Translation of `Series.pct_change(k)` with the default `fill_method="pad"`: forward-fill
the column, then at position `i` return `filled[i] / filled[i-k] - 1`; the
first `k` positions and positions where the filled column is still missing
are `NaN`. -/
def pct_change (k : ℕ) (l : List (Option ℚ)) (i : ℕ) : Option ℚ :=
  let f := ffill l
  if i < k then none
  else omap2 (fun a b => a / b - 1) (f.getD i none) (f.getD (i - k) none)

/-!
Index Normalizer

`normalize_index` from `src/transforms/build_market_metrics.py` (the copy in
`app/streamlit_app.py` is identical on nonempty input). A series is a list of
(date, nullable value) pairs; dates are modelled as integers.
-/

/-- Baseline-value resolution of `normalize_index`, factored out of the source
body: the value of the last row dated at-or-before the baseline if any row is
dated at-or-before (even when that value is null); otherwise the value of the
first row dated at-or-after; otherwise the first non-null value (dead for
nonempty input, where pandas would raise on an all-null series). -/
def baseValue (s : List (ℤ × Option ℚ)) (b : ℤ) : Option ℚ :=
  match ((s.insertionSort (fun p q => p.1 ≤ q.1)).filter (fun p => decide (p.1 ≤ b))).getLast? with
  | some p => p.2
  | none =>
    match (s.insertionSort (fun p q => p.1 ≤ q.1)).filter (fun p => decide (b ≤ p.1)) with
    | p :: _ => p.2
    | [] => ((s.insertionSort (fun p q => p.1 ≤ q.1)).filterMap (fun p => p.2)).head?

/-- Translation of `normalize_index(series, baseline_ts)`: sort by date, resolve the baseline
value, and either rebase every value by `value / base * 100` or — when the
resolved baseline value is null or exactly zero — multiply the series by `0.0`
(which zeroes non-null cells and leaves null cells null, as `NaN * 0 = NaN`). -/
def normalize_index (s : List (ℤ × Option ℚ)) (b : ℤ) : List (ℤ × Option ℚ) :=
  if s.isEmpty then s
  else
    match baseValue s b with
    | none =>
      (s.insertionSort (fun p q => p.1 ≤ q.1)).map (fun p => (p.1, p.2.map (fun _ => (0 : ℚ))))
    | some v =>
      if v = 0 then
        (s.insertionSort (fun p q => p.1 ≤ q.1)).map (fun p => (p.1, p.2.map (fun _ => (0 : ℚ))))
      else
        (s.insertionSort (fun p q => p.1 ≤ q.1)).map (fun p => (p.1, p.2.map (fun x => x / v * 100)))

/-!
Composite Signal Calculator

The `MarketSignals` dataframe: one nullable cell per tracked column per
period. The constructor sorts by date, so the lists below are already in date
order; `unemp_rate` and `cpi_index` are always-present columns (the source
indexes them unconditionally), while `job_openings_index`, `quits_index` and
`hires_index` may be absent as whole columns (`df.get(col, 100)` /
`'col' in df.columns`).
-/

/-- The dataframe held by `MarketSignals`, in date order. -/
structure Dataset where
  unemp_rate : List (Option ℚ)
  job_openings_index : Option (List (Option ℚ))
  quits_index : Option (List (Option ℚ))
  hires_index : Option (List (Option ℚ))
  cpi_index : List (Option ℚ)
  deriving DecidableEq

namespace Dataset

/-- Number of periods (rows) of the dataframe. -/
def len (d : Dataset) : ℕ := d.unemp_rate.length

/-- Cell of the `quits_index` column at row `i`; when the column is absent,
`df.get('quits_index', 100)` yields the scalar 100 broadcast to every row. -/
def quitsCell (d : Dataset) (i : ℕ) : Option ℚ :=
  match d.quits_index with
  | some q => q.getD i none
  | none => some 100

/-- Cell of the `hires_index` column at row `i`, with the same scalar-100
default as `quitsCell`. -/
def hiresCell (d : Dataset) (i : ℕ) : Option ℚ :=
  match d.hires_index with
  | some h => h.getD i none
  | none => some 100

end Dataset

/-- Step 1 of `calculate_employer_power_index`: estimated job seekers per
opening, `unemp_rate / (job_openings_index / 100)` when the openings column
exists, else `unemp_rate` alone. Caveat of the rational model: on a zero
openings cell pandas float division yields `±inf`, and `0/0` (zero
unemployment with zero openings) yields `NaN`, while rational division is
total; theorems whose conclusions depend on the EPI being non-null therefore
carry nonzero-openings hypotheses. -/
def seekers_per_opening (d : Dataset) (i : ℕ) : Option ℚ :=
  match d.job_openings_index with
  | some o => omap2 (fun u ov => u / (ov / 100)) (d.unemp_rate.getD i none) (o.getD i none)
  | none => d.unemp_rate.getD i none

/-- Step 2: `quits_factor = quits_index / 100` (scalar 1 when the column is
absent). -/
def quits_factor (d : Dataset) (i : ℕ) : Option ℚ :=
  (d.quitsCell i).map (fun q => q / 100)

/-- Step 3: `wage_growth_proxy = cpi_index.pct_change(12).fillna(0.02) + 1`;
the `fillna` makes this total. -/
def wage_growth_proxy (d : Dataset) (i : ℕ) : ℚ :=
  (pct_change 12 d.cpi_index i).getD (2/100) + 1

/-- Steps 4: the raw (pre-normalization) EPI ratio at row `i`, with an
exactly-zero denominator replaced by 1 (`denominator.replace(0, 1)`). -/
def raw_epi (d : Dataset) (i : ℕ) : Option ℚ :=
  let numerator := omap2 (· * ·) (d.unemp_rate.getD i none) (seekers_per_opening d i)
  let denominator := (quits_factor d i).map (fun q =>
    let dd := q * wage_growth_proxy d i
    if dd = 0 then 1 else dd)
  omap2 (· / ·) numerator denominator

/-- The raw EPI column over all rows. -/
def raw_epi_list (d : Dataset) : List (Option ℚ) :=
  (List.range d.len).map (raw_epi d)

/-- The `epi.median()` step: median of the non-null raw EPI values, `none` (NaN) when
every raw value is null. -/
def epi_median (d : Dataset) : Option ℚ :=
  let v := (raw_epi_list d).filterMap id
  if v.isEmpty then none else some (medianQ v)

/-- Step 5, `calculate_employer_power_index`: the raw column divided by its
whole-series median. -/
def calculate_employer_power_index (d : Dataset) : List (Option ℚ) :=
  (raw_epi_list d).map (fun r => omap2 (· / ·) r (epi_median d))

/-- Per-period combined movement `(quits_index/100 + hires_index/100) / 2`. -/
def movement (d : Dataset) (i : ℕ) : Option ℚ :=
  omap2 (fun q h => (q / 100 + h / 100) / 2) (d.quitsCell i) (d.hiresCell i)

/-- The `rolling(window=3, min_periods=1).mean()` step at position `i`: mean of the
non-null values among the last up-to-3 cells, null when all are null. -/
def roll_mean3 (f : ℕ → Option ℚ) (i : ℕ) : Option ℚ :=
  let xs := (List.range 3).filterMap (fun j => if j ≤ i then f (i - j) else none)
  if xs.isEmpty then none else some (xs.sum / xs.length)

/-- The movement column (used by `pct_change` for the momentum term). -/
def movement_list (d : Dataset) : List (Option ℚ) :=
  (List.range d.len).map (movement d)

/-- The momentum term `movement.pct_change(3).fillna(0)` at row `i`; total. -/
def momentum (d : Dataset) (i : ℕ) : ℚ :=
  (pct_change 3 (movement_list d) i).getD 0

/-- Translation of `calculate_talent_velocity` at row `i`:
`rolling-mean(movement) * (1 + momentum.clip(-0.5, 0.5))`. -/
def talent_velocity_at (d : Dataset) (i : ℕ) : Option ℚ :=
  (roll_mean3 (movement d) i).map
    (fun v => v * (1 + max (-(1/2) : ℚ) (min (1/2) (momentum d i))))

/-- The `calculate_talent_velocity` column over all rows. -/
def calculate_talent_velocity (d : Dataset) : List (Option ℚ) :=
  (List.range d.len).map (talent_velocity_at d)

/-!
Trend/Alert Detector
-/

/-- A trend signal string, abstracted to its kind, direction flag, and the
numeric delta interpolated into the message. -/
inductive TrendSignal where
  | unemployment (rising : Bool) (delta : ℚ)
  | quitRate (accelerating : Bool) (change : ℚ)
  | laborMarket (tightening : Bool) (change : ℚ)
  deriving DecidableEq

/-- Return value of `get_trend_signals`: either the bare
`{"status": "Insufficient data for trends"}` dict, or the
`{"signals": ..., "summary": ...}` dict (the summary string is the join of
the signal strings, or `"Market conditions stable"` when the list is empty,
so it carries no extra information). -/
inductive TrendOutput where
  | insufficientData
  | result (signals : List TrendSignal)
  deriving DecidableEq

/-- Unemployment block of `get_trend_signals`: signal when the absolute
difference between the window's newest and oldest `unemp_rate` exceeds 0.5
(false when either cell is null). -/
def unemploymentSignals (d : Dataset) (lookback_months : ℕ) : List TrendSignal :=
  match omap2 (· - ·) (d.unemp_rate.getD (d.len - 1) none)
      (d.unemp_rate.getD (d.len - lookback_months) none) with
  | some c => if 1/2 < |c| then [.unemployment (decide (0 < c)) c] else []
  | none => []

/-- Quits block of `get_trend_signals`: signal when the 3-period percent
change of `quits_index` at the window's newest period exceeds 0.10 in
absolute value; skipped when the column is absent. -/
def quitsSignals (d : Dataset) (lookback_months : ℕ) : List TrendSignal :=
  match d.quits_index with
  | some qs =>
    match pct_change 3 ((qs.drop (d.len - lookback_months)).take lookback_months)
        (lookback_months - 1) with
    | some c => if 1/10 < |c| then [.quitRate (decide (0 < c)) c] else []
    | none => []
  | none => []

/-- Openings-to-unemployment block of `get_trend_signals`: signal when the
relative change of `job_openings_index / unemp_rate` between the window's
first and last rows exceeds 0.15 in absolute value; skipped when the openings
column is absent. -/
def ratioSignals (d : Dataset) (lookback_months : ℕ) : List TrendSignal :=
  match d.job_openings_index with
  | some os =>
    match omap2 (fun e s => e / s - 1)
        (omap2 (· / ·) (os.getD (d.len - 1) none) (d.unemp_rate.getD (d.len - 1) none))
        (omap2 (· / ·) (os.getD (d.len - lookback_months) none)
          (d.unemp_rate.getD (d.len - lookback_months) none)) with
    | some c => if 3/20 < |c| then [.laborMarket (decide (0 < c)) c] else []
    | none => []
  | none => []

/-- Translation of `MarketSignals.get_trend_signals(lookback_months)`: on fewer rows than the
lookback, the status-only dict; otherwise scan the trailing window for the
three threshold conditions, in source order. Comparisons against a null
(NaN) quantity are false, so a null input cell suppresses its signal. -/
def get_trend_signals (d : Dataset) (lookback_months : ℕ) : TrendOutput :=
  if d.len < lookback_months then .insufficientData
  else
    .result (unemploymentSignals d lookback_months ++ quitsSignals d lookback_months ++
      ratioSignals d lookback_months)

/-!
The `calculate_all_signals` transform and the Summary Aggregator
-/

/-- A row of the dataframe returned by `calculate_all_signals`: the original
row (only `unemp_rate` is consumed downstream) plus the two composite scores
and, when both scores are non-null, the classification columns. -/
structure SignalRow where
  unemp_rate : Option ℚ
  employer_power_index : Option ℚ
  talent_velocity : Option ℚ
  market_state : Option MarketState
  hiring_outlook : Option HiringOutlook
  retention_risk : Option RetentionRisk
  deriving DecidableEq

/-- The all-null default row (used only for out-of-range `getD`). -/
def SignalRow.default : SignalRow := ⟨none, none, none, none, none, none⟩

/-- The executive-summary value built by `generate_market_summary` (date
string and display formatting omitted; `none` in the classification fields
stands for the `'UNKNOWN'` default of `row.get`). -/
structure MarketSummary where
  market_state : Option MarketState
  hiring_outlook : Option HiringOutlook
  retention_risk : Option RetentionRisk
  epi_value : Option ℚ
  epi_mom : Option ℚ
  epi_yoy : Option ℚ
  epi_employer_advantage : Bool
  velocity_value : Option ℚ
  velocity_mom : Option ℚ
  velocity_yoy : Option ℚ
  velocity_high_movement : Bool
  unemp_value : Option ℚ
  unemp_mom : Option ℚ
  unemp_yoy : Option ℚ
  deriving DecidableEq

/-- Result of `generate_market_summary`: the `{"error": "No data available"}`
dict on empty input, else the summary. -/
inductive SummaryResult where
  | emptyError
  | ok (s : MarketSummary)
  deriving DecidableEq

/-- Percentage change `(a / b - 1) * 100` used by the summary deltas. -/
def pctDelta (a b : Option ℚ) : Option ℚ := omap2 (fun x y => (x / y - 1) * 100) a b

/-- Translation of `generate_market_summary(signals_df)`: empty input yields the error dict;
otherwise compare the latest row against `iloc[-2]` (latest itself when only
one row exists) and `iloc[-12]` (`iloc[0]` unless more than 12 rows exist). -/
def generate_market_summary (rows : List SignalRow) : SummaryResult :=
  match rows with
  | [] => .emptyError
  | _ =>
    let n := rows.length
    let latest := rows.getD (n - 1) SignalRow.default
    let prev_month := if 1 < n then rows.getD (n - 2) SignalRow.default else latest
    let prev_year := if 12 < n then rows.getD (n - 12) SignalRow.default
      else rows.getD 0 SignalRow.default
    .ok
      { market_state := latest.market_state
        hiring_outlook := latest.hiring_outlook
        retention_risk := latest.retention_risk
        epi_value := latest.employer_power_index
        epi_mom := pctDelta latest.employer_power_index prev_month.employer_power_index
        epi_yoy := pctDelta latest.employer_power_index prev_year.employer_power_index
        epi_employer_advantage :=
          match latest.employer_power_index with
          | some e => decide (1 < e)
          | none => false
        velocity_value := latest.talent_velocity
        velocity_mom := pctDelta latest.talent_velocity prev_month.talent_velocity
        velocity_yoy := pctDelta latest.talent_velocity prev_year.talent_velocity
        velocity_high_movement :=
          match latest.talent_velocity with
          | some v => decide (6/5 < v)
          | none => false
        unemp_value := latest.unemp_rate
        unemp_mom := omap2 (· - ·) latest.unemp_rate prev_month.unemp_rate
        unemp_yoy := omap2 (· - ·) latest.unemp_rate prev_year.unemp_rate }

/-!
Reference formulas from the specification

Pure (non-nullable) restatements of the EPI formulas, written from the spec's
words, used to express the refinement claim C1 against the embedded code.
-/

/-- Spec formula: seekers per opening, `unemp_rate / (job_openings_index/100)`
when an openings column exists, else `unemp_rate` alone. -/
def specSeekers (us : List ℚ) (os? : Option (List ℚ)) (i : ℕ) : ℚ :=
  match os? with
  | some os => us.getD i 0 / (os.getD i 0 / 100)
  | none => us.getD i 0

/-- Spec formula: `quits_factor = quits_index/100`, neutral 1 when absent. -/
def specQuitsFactor (qs? : Option (List ℚ)) (i : ℕ) : ℚ :=
  match qs? with
  | some qs => qs.getD i 0 / 100
  | none => 1

/-- Spec formula: `wage_growth_proxy = 1 +` 12-period percent change of
`cpi_index`, the undefined changes of the first 12 periods replaced by the
constant `0.02`. -/
def specWageGrowth (cs : List ℚ) (i : ℕ) : ℚ :=
  if 12 ≤ i then 1 + (cs.getD i 0 / cs.getD (i - 12) 0 - 1) else 1 + 2/100

/-- Spec formula: `raw = (unemp_rate * seekers_per_opening) /
(quits_factor * wage_growth_proxy)` with an exactly-zero denominator
substituted by 1. -/
def specRaw (us cs : List ℚ) (os? qs? : Option (List ℚ)) (i : ℕ) : ℚ :=
  let den := specQuitsFactor qs? i * specWageGrowth cs i
  us.getD i 0 * specSeekers us os? i / (if den = 0 then 1 else den)

/-- The raw series of the spec formulas over all periods. -/
def specRawList (us cs : List ℚ) (os? qs? : Option (List ℚ)) : List ℚ :=
  (List.range us.length).map (specRaw us cs os? qs?)

/-- Spec formula: `EPI = raw / median(raw over the whole series)`. -/
def specEPI (us cs : List ℚ) (os? qs? : Option (List ℚ)) (i : ℕ) : ℚ :=
  specRaw us cs os? qs? i / medianQ (specRawList us cs os? qs?)

/-- A dataset all of whose present cells are non-null, assembled from pure
rational columns (absent optional columns stay absent). -/
def Dataset.ofPure (us cs : List ℚ) (os? qs? hs? : Option (List ℚ)) : Dataset :=
  { unemp_rate := us.map some
    job_openings_index := os?.map (List.map some)
    quits_index := qs?.map (List.map some)
    hires_index := hs?.map (List.map some)
    cpi_index := cs.map some }

/-!
Helper lemmas
-/

theorem getD_map_some (l : List ℚ) (i : ℕ) (h : i < l.length) :
    (l.map some).getD i none = some (l.getD i 0) := by
  rw [List.getD_eq_getElem?_getD, List.getElem?_map, List.getElem?_eq_getElem h,
    List.getD_eq_getElem?_getD, List.getElem?_eq_getElem h]
  rfl

theorem getD_map_range {α : Type} (f : ℕ → α) (dflt : α) (n i : ℕ) (h : i < n) :
    ((List.range n).map f).getD i dflt = f i := by
  rw [List.getD_eq_getElem?_getD, List.getElem?_map, List.getElem?_range h]
  rfl

theorem ffillAux_map_some (l : List ℚ) : ∀ last, ffillAux last (l.map some) = l.map some := by
  induction l with
  | nil => intro last; rfl
  | cons x xs ih => intro last; simp only [List.map_cons, ffillAux, ih]

theorem ffill_map_some (l : List ℚ) : ffill (l.map some) = l.map some :=
  ffillAux_map_some l none

theorem ffillAux_getD_some : ∀ (l : List (Option ℚ)) (last : Option ℚ) (i : ℕ) (v : ℚ),
    l.getD i none = some v → (ffillAux last l).getD i none = some v := by
  intro l
  induction l with
  | nil => intro last i v h; simp [List.getD] at h
  | cons x xs ih =>
    intro last i v h
    cases i with
    | zero =>
      cases x with
      | none => simp [List.getD_cons_zero] at h
      | some w => simpa [ffillAux, List.getD_cons_zero] using h
    | succ j =>
      cases x with
      | none =>
        have := ih last j v (by simpa [List.getD_cons_succ] using h)
        simpa [ffillAux, List.getD_cons_succ] using this
      | some w =>
        have := ih (some w) j v (by simpa [List.getD_cons_succ] using h)
        simpa [ffillAux, List.getD_cons_succ] using this

theorem ffill_getD_some (l : List (Option ℚ)) (i : ℕ) (v : ℚ)
    (h : l.getD i none = some v) : (ffill l).getD i none = some v :=
  ffillAux_getD_some l none i v h

theorem insertionSort_map_mono (f : ℚ → ℚ) (hf : ∀ x y : ℚ, x ≤ y → f x ≤ f y)
    (l : List ℚ) :
    (l.map f).insertionSort (· ≤ ·) = (l.insertionSort (· ≤ ·)).map f :=
  List.eq_of_perm_of_sorted
    ((List.perm_insertionSort _ _).trans ((List.perm_insertionSort _ l).map f).symm)
    (List.sorted_insertionSort _ _)
    (List.pairwise_map.mpr ((List.sorted_insertionSort _ l).imp (fun h => hf _ _ h)))

theorem insertionSort_map_anti (f : ℚ → ℚ) (hf : ∀ x y : ℚ, x ≤ y → f y ≤ f x)
    (l : List ℚ) :
    (l.map f).insertionSort (· ≤ ·) = ((l.insertionSort (· ≤ ·)).map f).reverse :=
  List.eq_of_perm_of_sorted
    (((List.perm_insertionSort _ _).trans ((List.perm_insertionSort _ l).map f).symm).trans
      (List.reverse_perm _).symm)
    (List.sorted_insertionSort _ _)
    (List.pairwise_reverse.mpr
      (List.pairwise_map.mpr ((List.sorted_insertionSort _ l).imp (fun h => hf _ _ h))))

theorem getD_map_rat (f : ℚ → ℚ) (s : List ℚ) (i : ℕ) (h : i < s.length) :
    (s.map f).getD i 0 = f (s.getD i 0) := by
  rw [List.getD_eq_getElem?_getD, List.getElem?_map, List.getElem?_eq_getElem h,
    List.getD_eq_getElem?_getD, List.getElem?_eq_getElem h]
  rfl

theorem getD_reverse_rat (t : List ℚ) (i : ℕ) (h : i < t.length) :
    t.reverse.getD i 0 = t.getD (t.length - 1 - i) 0 := by
  have h' : i < t.reverse.length := by simpa using h
  have h2 : t.length - 1 - i < t.length := by omega
  rw [List.getD_eq_getElem?_getD, List.getElem?_eq_getElem h', List.getElem_reverse,
    List.getD_eq_getElem?_getD, List.getElem?_eq_getElem h2]

theorem medianQ_all_zero (l : List ℚ) (h : ∀ x ∈ l, x = 0) : medianQ l = 0 := by
  have hs : ∀ i : ℕ, (l.insertionSort (· ≤ ·)).getD i 0 = 0 := by
    intro i
    rcases Nat.lt_or_ge i (l.insertionSort (· ≤ ·)).length with hi | hi
    · rw [List.getD_eq_getElem?_getD, List.getElem?_eq_getElem hi]
      exact h _ ((List.mem_insertionSort _).mp (List.getElem_mem hi))
    · rw [List.getD_eq_getElem?_getD, List.getElem?_eq_none hi]
      rfl
  unfold medianQ
  simp only [hs]
  split
  · rfl
  · split
    · rfl
    · norm_num

theorem medianQ_map_div (l : List ℚ) (m : ℚ) :
    medianQ (l.map (fun x => x / m)) = medianQ l / m := by
  rcases lt_trichotomy m 0 with hm | hm | hm
  · have hsort := insertionSort_map_anti (fun x => x / m)
      (fun x y hxy => (div_le_div_right_of_neg hm).mpr hxy) l
    have hlen : (l.insertionSort (· ≤ ·)).length = l.length := by simp
    have hml : ((l.insertionSort (· ≤ ·)).map (fun x => x / m)).length = l.length := by
      simp
    unfold medianQ
    rw [List.length_map, hsort]
    by_cases h1 : l.length % 2 = 1
    · simp only [h1, if_true]
      have hhalf : l.length / 2 < ((l.insertionSort (· ≤ ·)).map (fun x => x / m)).length := by
        omega
      rw [getD_reverse_rat _ _ hhalf, hml]
      have hidx : l.length - 1 - l.length / 2 = l.length / 2 := by omega
      rw [hidx, getD_map_rat _ _ _ (by omega)]
    · simp only [h1, if_false]
      by_cases h0 : l.length = 0
      · simp only [h0, if_true, zero_div]
      · simp only [h0, if_false]
        have hk1 : l.length / 2 - 1 < ((l.insertionSort (· ≤ ·)).map (fun x => x / m)).length := by
          omega
        have hk2 : l.length / 2 < ((l.insertionSort (· ≤ ·)).map (fun x => x / m)).length := by
          omega
        rw [getD_reverse_rat _ _ hk1, getD_reverse_rat _ _ hk2, hml]
        have hi1 : l.length - 1 - (l.length / 2 - 1) = l.length / 2 := by omega
        have hi2 : l.length - 1 - l.length / 2 = l.length / 2 - 1 := by omega
        rw [hi1, hi2, getD_map_rat _ _ _ (by omega), getD_map_rat _ _ _ (by omega),
          div_add_div_same, div_right_comm, add_comm]
  · subst hm
    have hconst : l.map (fun x => x / (0:ℚ)) = l.map (fun _ => (0:ℚ)) :=
      List.map_congr_left (fun x _ => div_zero x)
    rw [hconst, div_zero]
    exact medianQ_all_zero _ (fun x hx => by
      rcases List.mem_map.mp hx with ⟨y, _, h⟩
      exact h.symm)
  · have hsort := insertionSort_map_mono (fun x => x / m)
      (fun x y hxy => (div_le_div_iff_of_pos_right hm).mpr hxy) l
    have hlen : (l.insertionSort (· ≤ ·)).length = l.length := by simp
    unfold medianQ
    rw [List.length_map, hsort]
    by_cases h1 : l.length % 2 = 1
    · simp only [h1, if_true]
      rw [getD_map_rat _ _ _ (by omega)]
    · simp only [h1, if_false]
      by_cases h0 : l.length = 0
      · simp only [h0, if_true, zero_div]
      · simp only [h0, if_false]
        rw [getD_map_rat _ _ _ (by omega), getD_map_rat _ _ _ (by omega),
          div_add_div_same, div_right_comm]

theorem len_ofPure (us cs : List ℚ) (os? qs? hs? : Option (List ℚ)) :
    (Dataset.ofPure us cs os? qs? hs?).len = us.length := by
  simp [Dataset.ofPure, Dataset.len]

theorem wage_growth_ofPure (us cs : List ℚ) (os? qs? hs? : Option (List ℚ))
    (hcs : cs.length = us.length) (i : ℕ) (hi : i < us.length) :
    wage_growth_proxy (Dataset.ofPure us cs os? qs? hs?) i = specWageGrowth cs i := by
  unfold wage_growth_proxy specWageGrowth pct_change
  simp only [Dataset.ofPure]
  rw [ffill_map_some]
  by_cases h12 : 12 ≤ i
  · have hni : ¬ i < 12 := by omega
    rw [if_neg hni, if_pos h12, getD_map_some cs i (by omega),
      getD_map_some cs (i - 12) (by omega)]
    simp only [omap2, Option.getD_some]
    ring
  · have hil : i < 12 := by omega
    rw [if_pos hil, if_neg h12]
    simp only [Option.getD_none]
    ring

theorem raw_epi_ofPure (us cs : List ℚ) (os? qs? hs? : Option (List ℚ))
    (hcs : cs.length = us.length)
    (hos : ∀ os ∈ os?, os.length = us.length)
    (hqs : ∀ qs ∈ qs?, qs.length = us.length)
    (i : ℕ) (hi : i < us.length) :
    raw_epi (Dataset.ofPure us cs os? qs? hs?) i = some (specRaw us cs os? qs? i) := by
  have hw := wage_growth_ofPure us cs os? qs? hs? hcs i hi
  have hu := getD_map_some us i hi
  simp only [Dataset.ofPure] at hw
  simp only [raw_epi, seekers_per_opening, quits_factor, Dataset.quitsCell, specRaw,
    specSeekers, specQuitsFactor, Dataset.ofPure]
  cases os? with
  | none =>
    cases qs? with
    | none =>
      simp only [Option.map_none', Option.map_some'] at hw
      simp only [Option.map_none', hu, hw, omap2, Option.map_some']
      norm_num
    | some qs =>
      have hq := getD_map_some qs i (by rw [hqs qs rfl]; omega)
      simp only [Option.map_none', Option.map_some'] at hw
      simp only [Option.map_none', Option.map_some', hu, hq, hw, omap2]
  | some os =>
    have ho := getD_map_some os i (by rw [hos os rfl]; omega)
    cases qs? with
    | none =>
      simp only [Option.map_none', Option.map_some'] at hw
      simp only [Option.map_none', Option.map_some', hu, ho, hw, omap2]
      norm_num
    | some qs =>
      have hq := getD_map_some qs i (by rw [hqs qs rfl]; omega)
      simp only [Option.map_none', Option.map_some'] at hw
      simp only [Option.map_none', Option.map_some', hu, ho, hq, hw, omap2]

theorem specRawList_length (us cs : List ℚ) (os? qs? : Option (List ℚ)) :
    (specRawList us cs os? qs?).length = us.length := by
  unfold specRawList
  simp

theorem raw_epi_list_ofPure (us cs : List ℚ) (os? qs? hs? : Option (List ℚ))
    (hcs : cs.length = us.length)
    (hos : ∀ os ∈ os?, os.length = us.length)
    (hqs : ∀ qs ∈ qs?, qs.length = us.length) :
    raw_epi_list (Dataset.ofPure us cs os? qs? hs?) = (specRawList us cs os? qs?).map some := by
  unfold raw_epi_list specRawList
  rw [len_ofPure, List.map_map]
  apply List.map_congr_left
  intro i hi
  simp only [Function.comp_apply]
  exact raw_epi_ofPure us cs os? qs? hs? hcs hos hqs i (List.mem_range.mp hi)

theorem epi_median_ofPure (us cs : List ℚ) (os? qs? hs? : Option (List ℚ))
    (hne : us ≠ [])
    (hcs : cs.length = us.length)
    (hos : ∀ os ∈ os?, os.length = us.length)
    (hqs : ∀ qs ∈ qs?, qs.length = us.length) :
    epi_median (Dataset.ofPure us cs os? qs? hs?) =
      some (medianQ (specRawList us cs os? qs?)) := by
  have hlist := raw_epi_list_ofPure us cs os? qs? hs? hcs hos hqs
  have hfm : (raw_epi_list (Dataset.ofPure us cs os? qs? hs?)).filterMap id =
      specRawList us cs os? qs? := by
    rw [hlist, List.filterMap_map]
    simp [List.filterMap_some]
  have hnil : specRawList us cs os? qs? ≠ [] := by
    intro h
    have := specRawList_length us cs os? qs?
    rw [h] at this
    exact hne (List.length_eq_zero.mp this.symm)
  simp only [epi_median, hfm]
  rw [if_neg]
  simp [List.isEmpty_iff, hnil]

theorem epi_ofPure_map (us cs : List ℚ) (os? qs? hs? : Option (List ℚ))
    (hne : us ≠ [])
    (hcs : cs.length = us.length)
    (hos : ∀ os ∈ os?, os.length = us.length)
    (hqs : ∀ qs ∈ qs?, qs.length = us.length) :
    calculate_employer_power_index (Dataset.ofPure us cs os? qs? hs?) =
      ((specRawList us cs os? qs?).map
        (fun x => x / medianQ (specRawList us cs os? qs?))).map some := by
  have hlist := raw_epi_list_ofPure us cs os? qs? hs? hcs hos hqs
  have hmed := epi_median_ofPure us cs os? qs? hs? hne hcs hos hqs
  unfold calculate_employer_power_index
  rw [hlist, hmed, List.map_map, List.map_map]
  apply List.map_congr_left
  intro x _
  simp [omap2]

/-- C1: per period the EPI computation realizes the spec formulas —
seekers-per-opening with the openings fallback, quits factor with neutral
default, wage-growth proxy `1 + pct_change(12)` with `0.02` fill, raw ratio
with zero denominator replaced by 1 — and the final EPI is raw divided by the
whole-series median of raw, so the median of the EPI series is 1 whenever the
median of raw is non-zero. -/
theorem c1_employer_power_index_formula (us cs : List ℚ) (os? qs? hs? : Option (List ℚ))
    (hne : us ≠ [])
    (hcs : cs.length = us.length)
    (hos : ∀ os ∈ os?, os.length = us.length)
    (hqs : ∀ qs ∈ qs?, qs.length = us.length) :
    (∀ i < us.length,
      (calculate_employer_power_index (Dataset.ofPure us cs os? qs? hs?)).getD i none =
        some (specEPI us cs os? qs? i)) ∧
    (medianQ (specRawList us cs os? qs?) ≠ 0 →
      medianQ ((calculate_employer_power_index
        (Dataset.ofPure us cs os? qs? hs?)).filterMap id) = 1) := by
  have hepi := epi_ofPure_map us cs os? qs? hs? hne hcs hos hqs
  constructor
  · intro i hi
    have hlm : i < ((specRawList us cs os? qs?).map
        (fun x => x / medianQ (specRawList us cs os? qs?))).length := by
      rw [List.length_map, specRawList_length]
      exact hi
    rw [hepi, getD_map_some _ _ hlm,
      getD_map_rat _ _ _ (by rw [specRawList_length]; exact hi)]
    unfold specEPI specRawList
    rw [getD_map_range _ _ _ _ hi]
  · intro hm
    rw [hepi, List.filterMap_map]
    have hid : ((specRawList us cs os? qs?).map
        (fun x => x / medianQ (specRawList us cs os? qs?))).filterMap (id ∘ some) =
        (specRawList us cs os? qs?).map
          (fun x => x / medianQ (specRawList us cs os? qs?)) := by
      simp [List.filterMap_some]
    rw [hid, medianQ_map_div, div_self hm]

theorem getD_replicate_lt {α : Type} (a dflt : α) (n i : ℕ) (h : i < n) :
    (List.replicate n a).getD i dflt = a := by
  rw [List.getD_eq_getElem?_getD, List.getElem?_replicate]
  simp [h]

theorem movement_flat (d : Dataset) (n : ℕ)
    (hq : d.quits_index = some (List.replicate n (some 100)))
    (hh : d.hires_index = some (List.replicate n (some 100)))
    (i : ℕ) (hi : i < n) : movement d i = some 1 := by
  unfold movement Dataset.quitsCell Dataset.hiresCell
  simp only [hq, hh]
  rw [getD_replicate_lt _ _ _ _ hi]
  simp only [omap2]
  norm_num

theorem roll_mean3_ones (f : ℕ → Option ℚ) (i : ℕ) (h2i : 2 ≤ i)
    (h0 : f i = some 1) (h1 : f (i - 1) = some 1) (h2 : f (i - 2) = some 1) :
    roll_mean3 f i = some 1 := by
  have hr : List.range 3 = [0, 1, 2] := rfl
  have c0 : 0 ≤ i := Nat.zero_le i
  have c1 : 1 ≤ i := by omega
  simp only [roll_mean3, hr, List.filterMap_cons, List.filterMap_nil, if_pos c0, if_pos c1,
    if_pos h2i, Nat.sub_zero, h0, h1, h2]
  norm_num

theorem movement_list_flat (d : Dataset) (n : ℕ)
    (hq : d.quits_index = some (List.replicate n (some 100)))
    (hh : d.hires_index = some (List.replicate n (some 100)))
    (hlen : d.len = n) :
    movement_list d = List.replicate n (some 1) := by
  unfold movement_list
  rw [hlen]
  rw [List.map_congr_left
    (fun i hi => movement_flat d n hq hh i (List.mem_range.mp hi))]
  simp

theorem momentum_flat (d : Dataset) (n : ℕ)
    (hq : d.quits_index = some (List.replicate n (some 100)))
    (hh : d.hires_index = some (List.replicate n (some 100)))
    (hlen : d.len = n)
    (i : ℕ) (h3 : 3 ≤ i) (hi : i < n) : momentum d i = 0 := by
  unfold momentum pct_change
  rw [movement_list_flat d n hq hh hlen]
  have hrep : List.replicate n (some (1:ℚ)) = (List.replicate n 1).map some := by
    simp
  rw [hrep, ffill_map_some]
  have hni : ¬ i < 3 := by omega
  rw [if_neg hni, getD_map_some _ _ (by simpa using hi),
    getD_map_some _ _ (by simp; omega),
    getD_replicate_lt _ _ _ _ hi, getD_replicate_lt _ _ _ _ (by omega : i - 3 < n)]
  simp only [omap2]
  norm_num

/-- C9: on a flat dataset with `quits_index = hires_index = 100` at every
period, talent velocity is exactly 1 at every period from the 4th onward:
the narrowed rolling mean of the constant movement 1 is 1 and the 3-period
momentum of a flat series is 0. -/
theorem c9_flat_talent_velocity (n : ℕ) (u c : List (Option ℚ))
    (o : Option (List (Option ℚ)))
    (hlen : u.length = n) (i : ℕ) (h3 : 3 ≤ i) (hi : i < n) :
    (calculate_talent_velocity
      { unemp_rate := u, job_openings_index := o,
        quits_index := some (List.replicate n (some 100)),
        hires_index := some (List.replicate n (some 100)), cpi_index := c }).getD i none =
      some 1 := by
  set d : Dataset :=
    { unemp_rate := u, job_openings_index := o,
      quits_index := some (List.replicate n (some 100)),
      hires_index := some (List.replicate n (some 100)), cpi_index := c } with hd
  have hq : d.quits_index = some (List.replicate n (some 100)) := rfl
  have hh : d.hires_index = some (List.replicate n (some 100)) := rfl
  have hdl : d.len = n := by simp [hd, Dataset.len, hlen]
  unfold calculate_talent_velocity
  rw [hdl, getD_map_range _ _ _ _ hi]
  unfold talent_velocity_at
  rw [roll_mean3_ones (movement d) i (by omega)
    (movement_flat d n hq hh i hi)
    (movement_flat d n hq hh (i - 1) (by omega))
    (movement_flat d n hq hh (i - 2) (by omega)),
    momentum_flat d n hq hh hdl i h3 hi]
  norm_num

/-- C2: the classifier thresholds — FAVORABLE iff `epi > 1.5`, BALANCED iff
`0.8 < epi <= 1.5`, CHALLENGING iff `epi <= 0.8`; HIGH/ELEVATED iff
`velocity > 1.3`, MODERATE/NORMAL iff `0.9 < velocity <= 1.3`, LOW/LOW iff
`velocity <= 0.9`; the exact boundaries 1.5, 0.8, 1.3, 0.9 classify to the
lower band; and the overall state combines outlook and volatility as
specified. -/
theorem c2_classification_thresholds :
    (∀ e v : ℚ,
      ((classify_market_state (.fin e) (.fin v)).hiring_outlook = .FAVORABLE ↔ 3/2 < e) ∧
      ((classify_market_state (.fin e) (.fin v)).hiring_outlook = .BALANCED ↔
        4/5 < e ∧ e ≤ 3/2) ∧
      ((classify_market_state (.fin e) (.fin v)).hiring_outlook = .CHALLENGING ↔ e ≤ 4/5) ∧
      ((classify_market_state (.fin e) (.fin v)).volatility = .HIGH ↔ 13/10 < v) ∧
      ((classify_market_state (.fin e) (.fin v)).retention_risk = .ELEVATED ↔ 13/10 < v) ∧
      ((classify_market_state (.fin e) (.fin v)).volatility = .MODERATE ↔
        9/10 < v ∧ v ≤ 13/10) ∧
      ((classify_market_state (.fin e) (.fin v)).retention_risk = .NORMAL ↔
        9/10 < v ∧ v ≤ 13/10) ∧
      ((classify_market_state (.fin e) (.fin v)).volatility = .LOW ↔ v ≤ 9/10) ∧
      ((classify_market_state (.fin e) (.fin v)).retention_risk = .LOW ↔ v ≤ 9/10) ∧
      ((classify_market_state (.fin e) (.fin v)).state = .employersMarket ↔
        3/2 < e ∧ v ≤ 9/10) ∧
      ((classify_market_state (.fin e) (.fin v)).state = .employeesMarket ↔
        e ≤ 4/5 ∧ 13/10 < v) ∧
      ((classify_market_state (.fin e) (.fin v)).state = .transitioning ↔
        ¬(3/2 < e ∧ v ≤ 9/10) ∧ ¬(e ≤ 4/5 ∧ 13/10 < v))) ∧
    (classify_market_state (.fin (3/2)) (.fin 1)).hiring_outlook = .BALANCED ∧
    (classify_market_state (.fin (4/5)) (.fin 1)).hiring_outlook = .CHALLENGING ∧
    (classify_market_state (.fin 2) (.fin (13/10))).volatility = .MODERATE ∧
    (classify_market_state (.fin 2) (.fin (9/10))).volatility = .LOW := by
  refine ⟨fun e v => ?_, by decide, by decide, by decide, by decide⟩
  have htrie : (e ≤ 4/5 ∧ ¬(4/5 < e) ∧ e ≤ 3/2 ∧ ¬(3/2 < e)) ∨
      (4/5 < e ∧ ¬(e ≤ 4/5) ∧ e ≤ 3/2 ∧ ¬(3/2 < e)) ∨
      (4/5 < e ∧ ¬(e ≤ 4/5) ∧ 3/2 < e ∧ ¬(e ≤ 3/2)) := by
    rcases le_or_lt e (4/5) with h | h
    · exact Or.inl ⟨h, not_lt.mpr h, h.trans (by norm_num), not_lt.mpr (h.trans (by norm_num))⟩
    · rcases le_or_lt e (3/2) with h2 | h2
      · exact Or.inr (Or.inl ⟨h, not_le.mpr h, h2, not_lt.mpr h2⟩)
      · exact Or.inr (Or.inr ⟨(by norm_num : (4:ℚ)/5 < 3/2).trans h2, not_le.mpr
          ((by norm_num : (4:ℚ)/5 < 3/2).trans h2), h2, not_le.mpr h2⟩)
  have htriv : (v ≤ 9/10 ∧ ¬(9/10 < v) ∧ v ≤ 13/10 ∧ ¬(13/10 < v)) ∨
      (9/10 < v ∧ ¬(v ≤ 9/10) ∧ v ≤ 13/10 ∧ ¬(13/10 < v)) ∨
      (9/10 < v ∧ ¬(v ≤ 9/10) ∧ 13/10 < v ∧ ¬(v ≤ 13/10)) := by
    rcases le_or_lt v (9/10) with h | h
    · exact Or.inl ⟨h, not_lt.mpr h, h.trans (by norm_num), not_lt.mpr (h.trans (by norm_num))⟩
    · rcases le_or_lt v (13/10) with h2 | h2
      · exact Or.inr (Or.inl ⟨h, not_le.mpr h, h2, not_lt.mpr h2⟩)
      · exact Or.inr (Or.inr ⟨(by norm_num : (9:ℚ)/10 < 13/10).trans h2, not_le.mpr
          ((by norm_num : (9:ℚ)/10 < 13/10).trans h2), h2, not_le.mpr h2⟩)
  rcases htrie with ⟨a1, a2, a3, a4⟩ | ⟨a1, a2, a3, a4⟩ | ⟨a1, a2, a3, a4⟩ <;>
    rcases htriv with ⟨b1, b2, b3, b4⟩ | ⟨b1, b2, b3, b4⟩ | ⟨b1, b2, b3, b4⟩ <;>
      simp [classify_market_state, FVal.bgt, FVal.blt, a1, a2, a3, a4, b1, b2, b3, b4]

/-- C5 counterexample: the claim says a NaN EPI must fail with `InvalidScore`,
but `classify_market_state` has no finiteness check — with a NaN EPI every
threshold comparison is false and it returns a normal CHALLENGING
classification. -/
theorem c5_counterexample_nan_classified :
    classify_market_state FVal.nan (FVal.fin 1) =
      { state := .transitioning, color := .yellow, hiring_outlook := .CHALLENGING,
        hiring_score := FVal.nan, retention_risk := .NORMAL, volatility := .MODERATE,
        epi := FVal.nan, velocity := FVal.fin 1,
        recommendations := [.focusRetention, .reviewCompensation] } := by
  decide

/-- C5 amended: the only explicit failure surfaced to callers is the
empty-input error of `generate_market_summary`; `classify_market_state` never
fails — NaN or `-inf` inputs fall into the lowest bands (CHALLENGING / LOW)
because IEEE comparisons with NaN are false, and `+inf` into the highest. -/
theorem c5_amended_failure_modes :
    (∀ rows : List SignalRow, generate_market_summary rows = .emptyError ↔ rows = []) ∧
    (∀ v, (classify_market_state FVal.nan v).hiring_outlook = .CHALLENGING) ∧
    (∀ v, (classify_market_state FVal.ninf v).hiring_outlook = .CHALLENGING) ∧
    (∀ v, (classify_market_state FVal.pinf v).hiring_outlook = .FAVORABLE) ∧
    (∀ e, (classify_market_state e FVal.nan).volatility = .LOW) ∧
    (∀ e, (classify_market_state e FVal.ninf).volatility = .LOW) ∧
    (∀ e, (classify_market_state e FVal.pinf).volatility = .HIGH) := by
  refine ⟨fun rows => ?_, fun v => ?_, fun v => ?_, fun v => ?_, fun e => ?_, fun e => ?_,
    fun e => ?_⟩
  · cases rows <;> simp [generate_market_summary]
  · simp [classify_market_state, FVal.bgt, FVal.blt]
  · simp [classify_market_state, FVal.bgt, FVal.blt]
  · simp [classify_market_state, FVal.bgt, FVal.blt]
  · cases e <;> simp [classify_market_state, FVal.bgt, FVal.blt]
  · cases e <;> simp [classify_market_state, FVal.bgt, FVal.blt]
  · cases e <;> simp [classify_market_state, FVal.bgt, FVal.blt]

/-- C10: with fewer rows than the lookback window the trend detector returns
the status-only value, with no signals list and no summary — and no error. -/
theorem c10_insufficient_data (d : Dataset) (lookback : ℕ) (h : d.len < lookback) :
    get_trend_signals d lookback = .insufficientData := by
  unfold get_trend_signals
  rw [if_pos h]

/-- Witness for C10 at a concrete 3-row dataset with the default lookback 6. -/
theorem c10_insufficient_data_witness :
    (Dataset.ofPure [4, 4, 4] [100, 100, 100] none none none).len < 6 ∧
    get_trend_signals (Dataset.ofPure [4, 4, 4] [100, 100, 100] none none none) 6 =
      .insufficientData :=
  ⟨by decide, c10_insufficient_data _ 6 (by decide)⟩

/-- C3 counterexample: dates 1 and 3 with a null value at date 1 and value 50
at date 3, baseline 2. Every value at-or-before the baseline is missing while
a non-null non-zero value exists after it, so the claim predicts rebasing to
50 (output 100 at date 3); the code instead resolves the null value of the
last at-or-before row and zeroes the series. -/
theorem c3_counterexample_null_before_baseline :
    normalize_index [((1:ℤ), none), (3, some 50)] 2 = [(1, none), (3, some 0)] ∧
    normalize_index [((1:ℤ), none), (3, some 50)] 2 ≠ [(1, none), (3, some 100)] := by
  constructor <;> decide

/-- C4 counterexample: baseline value 0 at date 2 with a null cell at date 1;
the claim predicts every output value 0.0, but `s * 0.0` leaves the null cell
null. -/
theorem c4_counterexample_null_not_zeroed :
    normalize_index [((1:ℤ), none), (2, some 0)] 2 = [(1, none), (2, some 0)] ∧
    ¬ ∀ p ∈ normalize_index [((1:ℤ), none), (2, some 0)] 2, p.2 = some 0 := by
  constructor <;> decide

theorem insertionSort_eq_of_strict (s : List (ℤ × Option ℚ))
    (hs : List.Pairwise (fun p q : ℤ × Option ℚ => p.1 < q.1) s) :
    s.insertionSort (fun p q => p.1 ≤ q.1) = s :=
  List.Sorted.insertionSort_eq (hs.imp (fun h => le_of_lt h))

theorem normalize_index_zero_case (s : List (ℤ × Option ℚ)) (b : ℤ)
    (hsort : s.insertionSort (fun p q => p.1 ≤ q.1) = s)
    (hbase : baseValue s b = none ∨ baseValue s b = some 0) :
    normalize_index s b = s.map (fun p => (p.1, p.2.map (fun _ => (0 : ℚ)))) := by
  rcases s with _ | ⟨a, t⟩
  · rfl
  · rcases hbase with hb | hb
    · have h1 : normalize_index (a :: t) b =
          ((a :: t).insertionSort (fun p q => p.1 ≤ q.1)).map
            (fun p => (p.1, p.2.map (fun _ => (0 : ℚ)))) := by
        unfold normalize_index
        rw [hb]
        rfl
      rw [h1, hsort]
    · have h1 : normalize_index (a :: t) b =
          ((a :: t).insertionSort (fun p q => p.1 ≤ q.1)).map
            (fun p => (p.1, p.2.map (fun _ => (0 : ℚ)))) := by
        unfold normalize_index
        rw [hb]
        rfl
      rw [h1, hsort]

theorem normalize_index_rebase_case (s : List (ℤ × Option ℚ)) (b : ℤ) (v : ℚ)
    (hv : v ≠ 0)
    (hsort : s.insertionSort (fun p q => p.1 ≤ q.1) = s)
    (hbase : baseValue s b = some v) :
    normalize_index s b = s.map (fun p => (p.1, p.2.map (fun x => x / v * 100))) := by
  rcases s with _ | ⟨a, t⟩
  · rfl
  · have h1 : normalize_index (a :: t) b =
        if v = 0 then
          ((a :: t).insertionSort (fun p q => p.1 ≤ q.1)).map
            (fun p => (p.1, p.2.map (fun _ => (0 : ℚ))))
        else
          ((a :: t).insertionSort (fun p q => p.1 ≤ q.1)).map
            (fun p => (p.1, p.2.map (fun x => x / v * 100))) := by
      unfold normalize_index
      rw [hbase]
      rfl
    rw [h1, if_neg hv, hsort]

/-- C3 amended: the fallback chain of `normalize_index` resolves the baseline
to the value of the LAST ROW DATED at-or-before the baseline — even when that
value is null — and falls through to the first row at-or-after only when no
row at all is dated at-or-before; a null or zero resolved value zeroes every
non-null cell of the series (null cells stay null). -/
theorem c3_amended_fallback_chain (s : List (ℤ × Option ℚ)) (b : ℤ)
    (hs : List.Pairwise (fun p q : ℤ × Option ℚ => p.1 < q.1) s) :
    (∀ h : s.filter (fun p => decide (p.1 ≤ b)) ≠ [],
      baseValue s b = ((s.filter (fun p => decide (p.1 ≤ b))).getLast h).2) ∧
    (s.filter (fun p => decide (p.1 ≤ b)) = [] → ∀ h : s ≠ [],
      baseValue s b = (s.head h).2) ∧
    ((baseValue s b = none ∨ baseValue s b = some 0) →
      normalize_index s b = s.map (fun p => (p.1, p.2.map (fun _ => (0:ℚ))))) := by
  have hsort := insertionSort_eq_of_strict s hs
  refine ⟨?_, ?_, ?_⟩
  · intro h
    unfold baseValue
    simp only [hsort, List.getLast?_eq_getLast _ h]
  · intro hempty h
    have hall : s.filter (fun p => decide (b ≤ p.1)) = s := by
      rw [List.filter_eq_self]
      intro p hp
      by_contra hc
      have hple : p.1 ≤ b := le_of_lt (not_le.mp (by simpa using hc))
      have : p ∈ s.filter (fun p => decide (p.1 ≤ b)) :=
        List.mem_filter.mpr ⟨hp, by simpa using hple⟩
      rw [hempty] at this
      exact absurd this (List.not_mem_nil p)
    unfold baseValue
    rcases s with _ | ⟨a, t⟩
    · exact absurd rfl h
    · simp only [hsort, hempty, hall, List.getLast?_nil, List.head_cons]
  · exact normalize_index_zero_case s b hsort

/-- Witness for C3 amended: a concrete strictly-dated series whose baseline
month is absent resolves to the nearest earlier value. -/
theorem c3_amended_fallback_chain_witness :
    List.Pairwise (fun p q : ℤ × Option ℚ => p.1 < q.1)
      [(1, some 10), (2, some 20), (4, some 40)] ∧
    baseValue [((1:ℤ), some 10), (2, some 20), (4, some 40)] 3 = some 20 :=
  ⟨by decide, by
    have h := (c3_amended_fallback_chain
      [((1:ℤ), some 10), (2, some 20), (4, some 40)] 3 (by decide)).1 (by decide)
    exact h.trans (by decide)⟩

/-- C4 amended: with a non-null, non-zero resolved baseline value `v`, every
value is rebased to `value / v * 100` (nulls preserved, row count preserved)
and the row at the baseline date maps to exactly 100; with a null-or-zero
resolved baseline value, every NON-NULL cell becomes 0.0 while null cells
remain null. -/
theorem c4_amended_normalize_output (s : List (ℤ × Option ℚ)) (b : ℤ)
    (hs : List.Pairwise (fun p q : ℤ × Option ℚ => p.1 < q.1) s) :
    (∀ v : ℚ, v ≠ 0 → baseValue s b = some v →
      normalize_index s b = s.map (fun p => (p.1, p.2.map (fun x => x / v * 100))) ∧
      (normalize_index s b).length = s.length ∧
      ((b, some v) ∈ s → (b, some 100) ∈ normalize_index s b)) ∧
    ((baseValue s b = none ∨ baseValue s b = some 0) →
      normalize_index s b = s.map (fun p => (p.1, p.2.map (fun _ => (0:ℚ))))) := by
  have hsort := insertionSort_eq_of_strict s hs
  constructor
  · intro v hv hbase
    have hmap : normalize_index s b = s.map (fun p => (p.1, p.2.map (fun x => x / v * 100))) :=
      normalize_index_rebase_case s b v hv hsort hbase
    refine ⟨hmap, by rw [hmap, List.length_map], fun hmem => ?_⟩
    rw [hmap]
    have : ((b, some v) : ℤ × Option ℚ).1 = b ∧
        (((b, some v) : ℤ × Option ℚ).2.map (fun x => x / v * 100)) = some 100 := by
      constructor
      · rfl
      · simp [div_self hv]
    have h100 := List.mem_map_of_mem (fun p : ℤ × Option ℚ =>
      (p.1, p.2.map (fun x => x / v * 100))) hmem
    simpa [div_self hv] using h100
  · exact normalize_index_zero_case s b hsort

/-- Witness for C4 amended: rebasing a concrete series to a present, non-zero
baseline yields 100 at the baseline and `value / base * 100` elsewhere. -/
theorem c4_amended_normalize_output_witness :
    List.Pairwise (fun p q : ℤ × Option ℚ => p.1 < q.1) [(1, some 50), (2, some 100)] ∧
    (50:ℚ) ≠ 0 ∧
    baseValue [((1:ℤ), some 50), (2, some 100)] 1 = some 50 ∧
    normalize_index [((1:ℤ), some 50), (2, some 100)] 1 = [(1, some 100), (2, some 200)] :=
  ⟨by decide, by decide, by decide, by
    have h := ((c4_amended_normalize_output [((1:ℤ), some 50), (2, some 100)] 1
      (by decide)).1 50 (by decide) (by decide)).1
    rw [h]
    decide⟩

theorem getD_take_drop {α : Type} (l : List α) (a k j : ℕ) (dflt : α) (hj : j < k) :
    ((l.drop a).take k).getD j dflt = l.getD (a + j) dflt := by
  rw [List.getD_eq_getElem?_getD, List.getElem?_take_of_lt hj, List.getElem?_drop,
    List.getD_eq_getElem?_getD]

/-- C7: with at least 6 periods and both optional columns present, the
6-period trend scan emits exactly the three threshold signals — unemployment
direction and signed delta when `|last - first| > 0.5`, quits
acceleration/deceleration when the 3-period percent change at the newest
period exceeds 0.10 in absolute value, and tightening/loosening when the
relative change of `job_openings_index / unemp_rate` across the window
exceeds 15% — and nothing else. -/
theorem c7_trend_signals (d : Dataset) (qs os : List (Option ℚ))
    (hq : d.quits_index = some qs) (ho : d.job_openings_index = some os)
    (hlen : 6 ≤ d.len) (hqlen : qs.length = d.len) (holen : os.length = d.len)
    (uF uL oF oL qL qP : ℚ)
    (huF : d.unemp_rate.getD (d.len - 6) none = some uF)
    (huL : d.unemp_rate.getD (d.len - 1) none = some uL)
    (hoF : os.getD (d.len - 6) none = some oF)
    (hoL : os.getD (d.len - 1) none = some oL)
    (hqL : qs.getD (d.len - 1) none = some qL)
    (hqP : qs.getD (d.len - 4) none = some qP)
    (_huF0 : uF ≠ 0) (_huL0 : uL ≠ 0) (_hoF0 : oF ≠ 0) (_hqP0 : qP ≠ 0) :
    get_trend_signals d 6 = .result (
      (if 1/2 < |uL - uF| then [.unemployment (decide (0 < uL - uF)) (uL - uF)] else []) ++
      (if 1/10 < |qL / qP - 1| then [.quitRate (decide (0 < qL / qP - 1)) (qL / qP - 1)]
        else []) ++
      (if 3/20 < |oL / uL / (oF / uF) - 1|
        then [.laborMarket (decide (0 < oL / uL / (oF / uF) - 1)) (oL / uL / (oF / uF) - 1)]
        else [])) := by
  have hnlt : ¬ d.len < 6 := by omega
  have hw5 : ((qs.drop (d.len - 6)).take 6).getD 5 none = some qL := by
    rw [getD_take_drop _ _ _ _ _ (by norm_num)]
    have h55 : d.len - 6 + 5 = d.len - 1 := by omega
    rw [h55]
    exact hqL
  have hw2 : ((qs.drop (d.len - 6)).take 6).getD 2 none = some qP := by
    rw [getD_take_drop _ _ _ _ _ (by norm_num)]
    have h22 : d.len - 6 + 2 = d.len - 4 := by omega
    rw [h22]
    exact hqP
  have hpct : pct_change 3 ((qs.drop (d.len - 6)).take 6) (6 - 1) = some (qL / qP - 1) := by
    unfold pct_change
    rw [if_neg (by norm_num)]
    have hf5 := ffill_getD_some _ _ _ hw5
    have hf2 := ffill_getD_some _ _ _ hw2
    have h51 : (6 : ℕ) - 1 = 5 := by norm_num
    have h23 : (6 : ℕ) - 1 - 3 = 2 := by norm_num
    rw [h51, h23, hf5, hf2]
    rfl
  have hu6 : unemploymentSignals d 6 =
      (if 1/2 < |uL - uF| then [.unemployment (decide (0 < uL - uF)) (uL - uF)] else []) := by
    unfold unemploymentSignals
    rw [huL, huF]
    rfl
  have hq6 : quitsSignals d 6 =
      (if 1/10 < |qL / qP - 1| then [.quitRate (decide (0 < qL / qP - 1)) (qL / qP - 1)]
        else []) := by
    unfold quitsSignals
    rw [hq]
    show (match pct_change 3 ((qs.drop (d.len - 6)).take 6) (6 - 1) with
      | some c => if 1/10 < |c| then [TrendSignal.quitRate (decide (0 < c)) c] else []
      | none => []) = _
    rw [hpct]
  have hr6 : ratioSignals d 6 =
      (if 3/20 < |oL / uL / (oF / uF) - 1|
        then [.laborMarket (decide (0 < oL / uL / (oF / uF) - 1)) (oL / uL / (oF / uF) - 1)]
        else []) := by
    unfold ratioSignals
    rw [ho]
    show (match omap2 (fun e s => e / s - 1)
        (omap2 (· / ·) (os.getD (d.len - 1) none) (d.unemp_rate.getD (d.len - 1) none))
        (omap2 (· / ·) (os.getD (d.len - 6) none) (d.unemp_rate.getD (d.len - 6) none)) with
      | some c => if 3/20 < |c| then [TrendSignal.laborMarket (decide (0 < c)) c] else []
      | none => []) = _
    rw [hoL, huL, hoF, huF]
    rfl
  unfold get_trend_signals
  rw [if_neg hnlt, hu6, hq6, hr6]

/-- C8: on any non-empty signals dataset the summary succeeds and compares
the latest row against `iloc[-2]` (the latest row itself when only one period
exists) for month-over-month deltas and against `iloc[-12]` (the earliest
row unless more than 12 periods exist) for year-over-year deltas of EPI,
talent velocity, and unemployment rate; with a single period whose composite
scores are non-null and non-zero, all six deltas are exactly 0. -/
theorem c8_summary_comparators (rows : List SignalRow) (hne : rows ≠ []) :
    ∃ s, generate_market_summary rows = .ok s ∧
      s.epi_mom = pctDelta
        (rows.getD (rows.length - 1) SignalRow.default).employer_power_index
        ((if 1 < rows.length then rows.getD (rows.length - 2) SignalRow.default
          else rows.getD (rows.length - 1) SignalRow.default).employer_power_index) ∧
      s.epi_yoy = pctDelta
        (rows.getD (rows.length - 1) SignalRow.default).employer_power_index
        ((if 12 < rows.length then rows.getD (rows.length - 12) SignalRow.default
          else rows.getD 0 SignalRow.default).employer_power_index) ∧
      s.velocity_mom = pctDelta
        (rows.getD (rows.length - 1) SignalRow.default).talent_velocity
        ((if 1 < rows.length then rows.getD (rows.length - 2) SignalRow.default
          else rows.getD (rows.length - 1) SignalRow.default).talent_velocity) ∧
      s.velocity_yoy = pctDelta
        (rows.getD (rows.length - 1) SignalRow.default).talent_velocity
        ((if 12 < rows.length then rows.getD (rows.length - 12) SignalRow.default
          else rows.getD 0 SignalRow.default).talent_velocity) ∧
      s.unemp_mom = omap2 (· - ·)
        (rows.getD (rows.length - 1) SignalRow.default).unemp_rate
        ((if 1 < rows.length then rows.getD (rows.length - 2) SignalRow.default
          else rows.getD (rows.length - 1) SignalRow.default).unemp_rate) ∧
      s.unemp_yoy = omap2 (· - ·)
        (rows.getD (rows.length - 1) SignalRow.default).unemp_rate
        ((if 12 < rows.length then rows.getD (rows.length - 12) SignalRow.default
          else rows.getD 0 SignalRow.default).unemp_rate) ∧
      (rows.length = 1 → ∀ e v u : ℚ, e ≠ 0 → v ≠ 0 →
        (rows.getD 0 SignalRow.default).employer_power_index = some e →
        (rows.getD 0 SignalRow.default).talent_velocity = some v →
        (rows.getD 0 SignalRow.default).unemp_rate = some u →
        s.epi_mom = some 0 ∧ s.epi_yoy = some 0 ∧ s.velocity_mom = some 0 ∧
        s.velocity_yoy = some 0 ∧ s.unemp_mom = some 0 ∧ s.unemp_yoy = some 0) := by
  rcases rows with _ | ⟨r, rest⟩
  · exact absurd rfl hne
  · refine ⟨_, rfl, rfl, rfl, rfl, rfl, rfl, rfl, ?_⟩
    intro hlen1 e v u he0 hv0 he hv hu
    have hrest : rest = [] := by
      simpa using hlen1
    subst hrest
    refine ⟨?_, ?_, ?_, ?_, ?_, ?_⟩ <;>
      simp_all [pctDelta, omap2, div_self he0, div_self hv0]

/-- Witness for C1 at a concrete 3-period dataset with only the mandatory
columns. -/
theorem c1_employer_power_index_formula_witness :
    ([(4:ℚ), 5, 6] ≠ []) ∧
    medianQ (specRawList [4, 5, 6] [100, 100, 100] none none) ≠ 0 ∧
    medianQ ((calculate_employer_power_index
      (Dataset.ofPure [4, 5, 6] [100, 100, 100] none none none)).filterMap id) = 1 :=
  ⟨by decide, by decide,
    (c1_employer_power_index_formula [4, 5, 6] [100, 100, 100] none none none (by decide)
      (by decide) (by intro os h; simp at h) (by intro qs h; simp at h)).2 (by decide)⟩

/-- The concrete 6-period dataset used by the C7 witness: unemployment
falling from 6 to 4, openings rising from 90 to 130, quits jumping to 120 at
the end. -/
def c7WitnessData : Dataset :=
  { unemp_rate := [some 6, some 5, some 5, some 5, some 5, some 4]
    job_openings_index := some [some 90, some 100, some 105, some 110, some 120, some 130]
    quits_index := some [some 100, some 100, some 100, some 100, some 100, some 120]
    hires_index := some [some 100, some 100, some 100, some 100, some 100, some 100]
    cpi_index := [some 100, some 100, some 100, some 100, some 100, some 100] }

/-- Witness for C7: the concrete dataset crosses all three thresholds, so the
scan emits a falling-unemployment signal (delta -2), an accelerating-quits
signal (+20%), and a tightening signal (+117%). -/
theorem c7_trend_signals_witness :
    6 ≤ c7WitnessData.len ∧
    get_trend_signals c7WitnessData 6 =
      .result [.unemployment false (-2), .quitRate true (1/5), .laborMarket true (7/6)] :=
  ⟨by decide, by
    have h := c7_trend_signals c7WitnessData
      [some 100, some 100, some 100, some 100, some 100, some 120]
      [some 90, some 100, some 105, some 110, some 120, some 130]
      rfl rfl (by decide) (by decide) (by decide)
      6 4 90 130 120 100
      (by decide) (by decide) (by decide) (by decide) (by decide) (by decide)
      (by decide) (by decide) (by decide) (by decide)
    exact h.trans (by decide)⟩

/-- Witness for C8 on a single-row dataset: all six deltas are 0 and no
error is raised. -/
theorem c8_summary_comparators_witness :
    (([⟨some 4, some 1, some 1, none, none, none⟩] : List SignalRow) ≠ []) ∧
    (∃ s, generate_market_summary
        [(⟨some 4, some 1, some 1, none, none, none⟩ : SignalRow)] = .ok s ∧
      s.epi_mom = some 0 ∧ s.epi_yoy = some 0 ∧ s.velocity_mom = some 0 ∧
      s.velocity_yoy = some 0 ∧ s.unemp_mom = some 0 ∧ s.unemp_yoy = some 0) :=
  ⟨by decide, by
    obtain ⟨s, hok, h1, h2, h3, h4, h5, h6, hsingle⟩ :=
      c8_summary_comparators [⟨some 4, some 1, some 1, none, none, none⟩] (by decide)
    obtain ⟨z1, z2, z3, z4, z5, z6⟩ := hsingle (by decide) 1 1 4 (by decide) (by decide)
      (by decide) (by decide) (by decide)
    exact ⟨s, hok, z1, z2, z3, z4, z5, z6⟩⟩

/-- Witness for C9 on a concrete 5-period flat dataset at period index 3. -/
theorem c9_flat_talent_velocity_witness :
    ((3:ℕ) ≤ 3) ∧ ((3:ℕ) < 5) ∧
    (calculate_talent_velocity
      { unemp_rate := [some 4, some 4, some 4, some 4, some 4],
        job_openings_index := none,
        quits_index := some (List.replicate 5 (some 100)),
        hires_index := some (List.replicate 5 (some 100)),
        cpi_index := [some 100, some 100, some 100, some 100, some 100] }).getD 3 none =
      some 1 :=
  ⟨by decide, by decide,
    c9_flat_talent_velocity 5 [some 4, some 4, some 4, some 4, some 4]
      [some 100, some 100, some 100, some 100, some 100] none (by decide) 3 (by decide)
      (by decide)⟩

end LaborMarket
